import Mathlib

/-!
# examples/list_interfaces/main.go

A shallow embedding of the example program `main`: the three fallible library
calls and the write to standard output are supplied by a `World`, and `main`
returns the sequence of actions it performs together with how the process ends.

The scanner library the example calls is not part of the example's source; where a
statement is about the library, the library is modelled from the specification and the
definition says so.
-/

namespace ListInterfaces

/-- One byte of a Go `[]byte` or `string`. -/
abbrev Byte := Fin 256

/-- A non-nil Go `error` value; `Error` is the text its `Error()` method returns. -/
structure GoError where
  Error : String

/-- Go's `context.Context` as seen by a callee: `Deadline` is `some d` when
`Deadline()` reports `ok`, `Done t` says whether the channel returned by `Done()` is
closed at instant `t`, and `Err t` is what `Err()` returns at instant `t`. -/
structure Context where
  Deadline : Option Nat
  Done : Nat → Bool
  Err : Nat → Option GoError

/-- The empty context `context.Background()` of the standard library. `Deadline()`
returns `ok = false`, `Done()` returns a nil channel (never closed) and `Err()`
returns nil. -/
def Background : Context :=
  { Deadline := none, Done := fun _ => false, Err := fun _ => none }

/-- A functional option of the scanner (`nmap.Option`), identified by the flag it sets
and the value it carries. -/
structure ScanOption where
  flag : String
  value : Option String

/-- What a library call hands back: `none` when control never comes back to `main`
(the call blocks forever or panics), otherwise the Go result pair `(value, err)` with
`err = none` for a nil error. -/
abbrev CallResult (α : Type) := Option (α × Option GoError)

/-- The library functions `main` calls. `S` is the scanner handle type, `L` the
interface-list type. `Write` is the write of `fmt.Println` to `os.Stdout`, whose result
`(n, err)` `main` discards. -/
structure World (S L : Type) where
  NewScanner : Context → List ScanOption → CallResult S
  GetInterfaceList : S → CallResult L
  MarshalIndent : L → String → String → CallResult (List Byte)
  Write : List Byte → CallResult Nat

/-- The actions of `main`, in program order. `Fatalf msg` is `log.Fatalf`, with `msg`
the formatted message handed to the standard logger; `Stdout bs` is one write of the
bytes `bs` to standard output. -/
inductive Event (S L : Type) where
  | NewScanner (ctx : Context) (options : List ScanOption)
  | GetInterfaceList (scanner : S)
  | MarshalIndent (v : L) (pfx : String) (indent : String)
  | Stdout (bs : List Byte)
  | Fatalf (msg : String)

/-- How the process ends: `exit code`, or `noReturn` when a library call never
returned. -/
inductive Outcome where
  | exit (code : Nat)
  | noReturn
  deriving DecidableEq, Repr

/-- One execution of `main`. -/
structure Exec (S L : Type) where
  trace : List (Event S L)
  outcome : Outcome

/-- The expansion of a format holding the verb `%v` with one operand: the text of the
format is copied and the verb is replaced by the operand's text. -/
def sprintfAux : List Char → String → List Char
  | '%' :: 'v' :: rest, a => a.data ++ rest
  | c :: rest, a => c :: sprintfAux rest a
  | [], _ => []

/-- Go's `fmt.Sprintf(format, err)` for a non-nil error operand: `%v` prints the text
returned by `err.Error()`. -/
def Sprintf (format : String) (err : GoError) : String :=
  ⟨sprintfAux format.data err.Error⟩

/-- What `fmt.Println(string(bytes))` writes: the operand's bytes followed by a newline,
handed to standard output in a single write. -/
def Println (bytes : List Byte) : List Byte :=
  bytes ++ [10]

/-- The program `main` of `examples/list_interfaces/main.go`. `log.Fatalf` logs the
formatted message and exits with status 1, so nothing after it runs. -/
def main {S L : Type} (w : World S L) : Exec S L :=
  match w.NewScanner Background [] with
  | none => ⟨[.NewScanner Background []], .noReturn⟩
  | some (_, some err) =>
    ⟨[.NewScanner Background [],
      .Fatalf (Sprintf "unable to create nmap scanner: %v" err)], .exit 1⟩
  | some (scanner, none) =>
    match w.GetInterfaceList scanner with
    | none => ⟨[.NewScanner Background [], .GetInterfaceList scanner], .noReturn⟩
    | some (_, some err) =>
      ⟨[.NewScanner Background [], .GetInterfaceList scanner,
        .Fatalf (Sprintf "could not get interface list: %v" err)], .exit 1⟩
    | some (interfaceList, none) =>
      match w.MarshalIndent interfaceList "" "\t" with
      | none =>
        ⟨[.NewScanner Background [], .GetInterfaceList scanner,
          .MarshalIndent interfaceList "" "\t"], .noReturn⟩
      | some (_, some err) =>
        ⟨[.NewScanner Background [], .GetInterfaceList scanner,
          .MarshalIndent interfaceList "" "\t",
          .Fatalf (Sprintf "unable to marshal: %v" err)], .exit 1⟩
      | some (bytes, none) =>
        ⟨[.NewScanner Background [], .GetInterfaceList scanner,
          .MarshalIndent interfaceList "" "\t", .Stdout (Println bytes)],
          match w.Write (Println bytes) with
          | none => .noReturn
          | some _ => .exit 0⟩

/-- Everything the execution wrote to standard output, one entry per write. -/
def stdoutWrites {S L : Type} : List (Event S L) → List (List Byte)
  | [] => []
  | .Stdout bs :: t => bs :: stdoutWrites t
  | _ :: t => stdoutWrites t

/-- The messages of the fatal logs of the execution. -/
def fatalMessages {S L : Type} : List (Event S L) → List String
  | [] => []
  | .Fatalf msg :: t => msg :: fatalMessages t
  | _ :: t => fatalMessages t

/-- A world for examples: the scanner is `7`, the interface list is `[1, 2]`, and
marshalling yields the two bytes `[]`. -/
def okWorld : World Nat (List Nat) :=
  { NewScanner := fun _ _ => some (7, none)
    GetInterfaceList := fun _ => some ([1, 2], none)
    MarshalIndent := fun _ _ _ => some ([91, 93], none)
    Write := fun bs => some (bs.length, none) }

/-- The four library calls of `main`. -/
inductive Call where
  | NewScanner
  | GetInterfaceList
  | MarshalIndent
  | Println
  deriving DecidableEq, Repr

/-- The library calls of an execution, in the order they were made (`log.Fatalf` is the
failure exit, not one of the four calls). -/
def calls {S L : Type} : List (Event S L) → List Call
  | [] => []
  | .NewScanner _ _ :: t => Call.NewScanner :: calls t
  | .GetInterfaceList _ :: t => Call.GetInterfaceList :: calls t
  | .MarshalIndent _ _ _ :: t => Call.MarshalIndent :: calls t
  | .Stdout _ :: t => Call.Println :: calls t
  | .Fatalf _ :: t => calls t

/-- Whether the action `ev` hands control back in the world `w`: a library call does when
the world gives it a result; `log.Fatalf` ends the process by itself. -/
def Event.completes {S L : Type} (w : World S L) : Event S L → Bool
  | .NewScanner ctx options => (w.NewScanner ctx options).isSome
  | .GetInterfaceList s => (w.GetInterfaceList s).isSome
  | .MarshalIndent v pfx indent => (w.MarshalIndent v pfx indent).isSome
  | .Stdout bs => (w.Write bs).isSome
  | .Fatalf _ => true

/-- The texts that precede the error's own text in the three fatal messages. -/
def prefixes : List String :=
  ["unable to create nmap scanner: ", "could not get interface list: ", "unable to marshal: "]

/-! ## The library behind the example

`nmap.NewScanner` and the scan engine are code of this repository that is not part of
the example's source file. The definitions below follow the specification's description
of them (sections 3, 4, 5 and 7). -/

/-- Modelled from the spec: the error taxonomy of section 7 (the library's error values
are not in the example's source). -/
inductive ScanError where
  | ToolNotFoundError
  | UnsupportedVersionError
  | InvalidConfigurationError
  | ProcessExecutionError (stderr : List Byte)
  | TruncatedOutputError
  | MalformedOutputError
  | CancelledError
  deriving DecidableEq, Repr

/-- A version of the external tool, major then minor. -/
structure Version where
  major : Nat
  minor : Nat
  deriving DecidableEq, Repr

/-- The tool version `v` is at least the minimum `m`. -/
def Version.meets (v m : Version) : Bool :=
  decide (m.major < v.major) || (decide (m.major = v.major) && decide (m.minor ≤ v.minor))

/-- The execution environment of section 6: `tool` is the version reported by the
external tool binary when the binary is discoverable, `none` when it is not;
`minimumVersion` is the minimum supported version. -/
structure Host where
  tool : Option Version
  minimumVersion : Version

/-- The scanner handle: the context and options it was built from and the tool version
it found. -/
structure Scanner where
  ctx : Context
  options : List ScanOption
  toolVersion : Version

/-- Modelled from the spec: `NewScanner` (section 4.1), absent from the source, which
only calls it. It "validates that the external tool binary is discoverable and meets a
minimum supported version; fails with `ToolNotFoundError` or `UnsupportedVersionError`
otherwise". -/
def NewScanner (host : Host) (ctx : Context) (options : List ScanOption) :
    Except ScanError Scanner :=
  match host.tool with
  | none => .error .ToolNotFoundError
  | some v =>
    if v.meets host.minimumVersion then .ok ⟨ctx, options, v⟩
    else .error .UnsupportedVersionError

/-- The Go result pair of a library function that returns a pointer and an error: a nil
pointer (`none`) with the error on failure, the value with a nil error on success.
`describe` is the text of the error value. -/
def goResult {α : Type} (describe : ScanError → String) :
    Except ScanError α → Option α × Option GoError
  | .ok a => (some a, none)
  | .error e => (none, some ⟨describe e⟩)

/-- A world whose `NewScanner` is the library's, run on `host`; the other calls are those
of `rest`. -/
def libraryWorld {L : Type} (host : Host) (describe : ScanError → String)
    (rest : World (Option Scanner) L) : World (Option Scanner) L :=
  { rest with
    NewScanner := fun ctx options => some (goResult describe (NewScanner host ctx options)) }

/-- The errors of the output parser (section 4.3). -/
inductive ParseError where
  | TruncatedOutputError
  | MalformedOutputError
  deriving DecidableEq, Repr

/-- A parse error as a member of the taxonomy. -/
def ParseError.toScanError : ParseError → ScanError
  | .TruncatedOutputError => .TruncatedOutputError
  | .MalformedOutputError => .MalformedOutputError

/-- The parts of the library the specification leaves to the external tool: which
options are known, which pairs of options conflict, and the output parser
`Parse(byteStream) -> ScanResult | Error` over the result type `R`. -/
structure Library (R : Type) where
  known : ScanOption → Bool
  conflict : ScanOption → ScanOption → Bool
  Parse : List Byte → Except ParseError R

/-- Modelled from the spec: the configuration-time check of section 4.1, absent from the
source: "unknown or conflicting option combinations fail fast at configuration time".
An option list passes when every option is known and no two of its options conflict. -/
def validOptions {R : Type} (lib : Library R) : List ScanOption → Bool
  | [] => true
  | o :: rest => lib.known o && rest.all (fun o2 => !(lib.conflict o o2 || lib.conflict o2 o))
      && validOptions lib rest

/-- Modelled from the spec: the cancellation check of section 5, absent from the source:
"the context/cancellation signal is checked at each suspension point". At instant `t` a
cancellation is pending exactly when the context's `Done()` channel is closed. -/
def cancellationRequested (ctx : Context) (t : Nat) : Bool :=
  ctx.Done t

/-- The `ScanConfiguration` of section 3: ordered targets, enabled options and the
output-format selection. -/
structure ScanConfiguration where
  targets : List String
  options : List ScanOption
  outputFormat : String

/-- One piece of output read from the child process. -/
inductive ProcEvent where
  | stdout (chunk : List Byte)
  | stderr (chunk : List Byte)

/-- The child process of one run as the runner observes it: the pieces of output in the
order they are read, then the exit status. -/
structure Process where
  events : List ProcEvent
  exitCode : Nat

/-- Everything the process wrote to its standard output. -/
def stdoutOf : List ProcEvent → List Byte
  | [] => []
  | .stdout c :: rest => c ++ stdoutOf rest
  | .stderr _ :: rest => stdoutOf rest

/-- Everything the process wrote to its standard error. -/
def stderrOf : List ProcEvent → List Byte
  | [] => []
  | .stdout _ :: rest => stderrOf rest
  | .stderr c :: rest => c ++ stderrOf rest

/-- Modelled from the spec: the state machine for one `Run` (section 4), absent from the
source: `Idle -> Configuring -> Spawning -> Streaming -> Parsing -> Completed` or, on any
step, `-> Failed(reason)`. `Streaming` carries the live handle (the output still to be
read and the exit status that follows it), the standard output and standard error read so
far, and the number of the suspension point. -/
inductive RunState (R : Type) where
  | Idle
  | Configuring
  | Spawning
  | Streaming (pending : List ProcEvent) (exitCode : Nat) (out : List Byte)
      (err : List Byte) (t : Nat)
  | Parsing (out : List Byte)
  | Completed (result : R)
  | Failed (reason : ScanError)

/-- Modelled from the spec: one transition of the `Run` state machine, absent from the
source. `spawn` is what starting the external process gives: a failure, or the process.
Configuration errors fail before the process is spawned; at every suspension point (a
wait for output or for the exit) the cancellation signal is checked first and a pending
cancellation ends the run with `CancelledError`; output is consumed in the order the
process emitted it; a non-zero exit status is `ProcessExecutionError` carrying the
captured standard error; the drained standard output is parsed and a parse error fails
the run. `Completed` and `Failed` are terminal. -/
def RunState.step {R : Type} (lib : Library R) (ctx : Context) (cfg : ScanConfiguration)
    (spawn : Except ScanError Process) : RunState R → RunState R
  | .Idle => .Configuring
  | .Configuring =>
    if validOptions lib cfg.options then .Spawning else .Failed .InvalidConfigurationError
  | .Spawning =>
    match spawn with
    | .ok proc => .Streaming proc.events proc.exitCode [] [] 0
    | .error e => .Failed e
  | .Streaming pending exitCode out err t =>
    if cancellationRequested ctx t then .Failed .CancelledError
    else
      match pending with
      | .stdout c :: rest => .Streaming rest exitCode (out ++ c) err (t + 1)
      | .stderr c :: rest => .Streaming rest exitCode out (err ++ c) (t + 1)
      | [] => if exitCode = 0 then .Parsing out else .Failed (.ProcessExecutionError err)
  | .Parsing out =>
    match lib.Parse out with
    | .ok r => .Completed r
    | .error e => .Failed e.toScanError
  | .Completed r => .Completed r
  | .Failed e => .Failed e

/-- The state reached from `s` after `n` transitions. -/
def RunState.steps {R : Type} (lib : Library R) (ctx : Context) (cfg : ScanConfiguration)
    (spawn : Except ScanError Process) : Nat → RunState R → RunState R
  | 0, s => s
  | n + 1, s => RunState.steps lib ctx cfg spawn n (RunState.step lib ctx cfg spawn s)

/-- What a run hands to its caller in state `s`: nothing before a terminal state, the
result in `Completed`, the reason in `Failed`. -/
def RunState.returned {R : Type} : RunState R → Option (Except ScanError R)
  | .Completed r => some (.ok r)
  | .Failed e => some (.error e)
  | _ => none

/-- Modelled from the spec: `Run(context) -> ScanResult | Error` (section 4.1), absent
from the source: the state machine driven from `Idle` for `fuel` transitions. -/
def RunFor {R : Type} (lib : Library R) (ctx : Context) (cfg : ScanConfiguration)
    (spawn : Except ScanError Process) (fuel : Nat) : Option (Except ScanError R) :=
  (RunState.steps lib ctx cfg spawn fuel .Idle).returned

/-- The number of transitions a run can need: three to reach `Streaming`, one per piece
of output, one for the exit status and one to parse. -/
def runFuel : Except ScanError Process → Nat
  | .ok proc => proc.events.length + 5
  | .error _ => 5

/-- Modelled from the spec: `Run`, absent from the source, as the state machine run for
the transitions this run can need. -/
def Run {R : Type} (lib : Library R) (ctx : Context) (cfg : ScanConfiguration)
    (spawn : Except ScanError Process) : Option (Except ScanError R) :=
  RunFor lib ctx cfg spawn (runFuel spawn)

/-- A cancellation is pending at one of the `n` suspension points `t`, `t + 1`, ... -/
def cancelledWithin (ctx : Context) : Nat → Nat → Bool
  | _, 0 => false
  | t, n + 1 => cancellationRequested ctx t || cancelledWithin ctx (t + 1) n

/-- The state in which draining `pending` from `Streaming pending exitCode out err t`
ends. -/
def drained {R : Type} (lib : Library R) (ctx : Context) (pending : List ProcEvent)
    (exitCode : Nat) (out err : List Byte) (t : Nat) : RunState R :=
  if cancelledWithin ctx t (pending.length + 1) then .Failed .CancelledError
  else if exitCode = 0 then
    match lib.Parse (out ++ stdoutOf pending) with
    | .ok r => .Completed r
    | .error e => .Failed e.toScanError
  else .Failed (.ProcessExecutionError (err ++ stderrOf pending))

/-- The result of a run said directly, without the state machine: an invalid
configuration fails first, then a failure to spawn; otherwise a cancellation pending at
one of the suspension points (one per piece of output, one for the exit status) gives
`CancelledError`; otherwise a non-zero exit status gives `ProcessExecutionError` with the
whole standard error; otherwise the result is that of parsing the whole standard
output. -/
def runOutcome {R : Type} (lib : Library R) (ctx : Context) (cfg : ScanConfiguration)
    (spawn : Except ScanError Process) : Except ScanError R :=
  if validOptions lib cfg.options then
    match spawn with
    | .error e => .error e
    | .ok proc =>
      if cancelledWithin ctx 0 (proc.events.length + 1) then .error .CancelledError
      else if proc.exitCode = 0 then
        match lib.Parse (stdoutOf proc.events) with
        | .ok r => .ok r
        | .error e => .error e.toScanError
      else .error (.ProcessExecutionError (stderrOf proc.events))
  else .error .InvalidConfigurationError

/-- A host for examples on which the tool is missing. -/
def bareHost : Host :=
  { tool := none, minimumVersion := ⟨7, 0⟩ }

/-- A library for examples: every option is known, none conflict, and the parser accepts
exactly the output that starts with the byte `1`, of which the result is the length. -/
def demoLibrary : Library Nat :=
  { known := fun _ => true
    conflict := fun _ _ => false
    Parse := fun bs =>
      match bs with
      | 1 :: _ => .ok bs.length
      | [] => .error .TruncatedOutputError
      | _ => .error .MalformedOutputError }

/-- A process for examples: two pieces of standard output around one of standard error,
exit status 0. -/
def demoProcess : Process :=
  { events := [.stdout [1, 2], .stderr [9], .stdout [3]], exitCode := 0 }

/-- A configuration for examples. -/
def demoConfiguration : ScanConfiguration :=
  { targets := ["192.0.2.1"], options := [⟨"-sn", none⟩], outputFormat := "xml" }

/-- A host for examples: the tool is present at version 7.80, the minimum is 7.0. -/
def demoHost : Host :=
  { tool := some ⟨7, 80⟩, minimumVersion := ⟨7, 0⟩ }

/-- A world for examples over the library's scanner handle. -/
def okLibraryWorld : World (Option Scanner) (List Nat) :=
  { NewScanner := fun ctx options => some (some ⟨ctx, options, ⟨7, 80⟩⟩, none)
    GetInterfaceList := fun _ => some ([1, 2], none)
    MarshalIndent := fun _ _ _ => some ([91, 93], none)
    Write := fun bs => some (bs.length, none) }

/-- A world for examples in which `NewScanner` fails. -/
def failWorld : World Nat (List Nat) :=
  { okWorld with NewScanner := fun _ _ => some (0, some ⟨"nmap binary was not found"⟩) }

/-! ## Lemmas -/

theorem sprintf_newScanner (e : GoError) :
    Sprintf "unable to create nmap scanner: %v" e = "unable to create nmap scanner: " ++ e.Error := by
  apply String.ext
  simp [Sprintf, sprintfAux, String.data_append]

theorem sprintf_getInterfaceList (e : GoError) :
    Sprintf "could not get interface list: %v" e = "could not get interface list: " ++ e.Error := by
  apply String.ext
  simp [Sprintf, sprintfAux, String.data_append]

theorem sprintf_marshal (e : GoError) :
    Sprintf "unable to marshal: %v" e = "unable to marshal: " ++ e.Error := by
  apply String.ext
  simp [Sprintf, sprintfAux, String.data_append]

theorem fatal_text_determines (p q : String) (hp : p ∈ prefixes) (hq : q ∈ prefixes)
    (a b : String) (h : p ++ a = q ++ b) : p = q ∧ a = b := by
  have hd : p.data ++ a.data = q.data ++ b.data := by
    simpa [String.data_append] using congrArg String.data h
  simp only [prefixes, List.mem_cons, List.mem_singleton, List.not_mem_nil, or_false] at hp hq
  rcases hp with rfl | rfl | rfl <;> rcases hq with rfl | rfl | rfl <;>
    first
    | (refine ⟨rfl, ?_⟩
       apply String.ext
       simpa using hd)
    | (exfalso
       simp at hd)

theorem main_newScanner_err {S L : Type} (w : World S L) (s : S) (e : GoError)
    (h : w.NewScanner Background [] = some (s, some e)) :
    main w = ⟨[.NewScanner Background [],
      .Fatalf (Sprintf "unable to create nmap scanner: %v" e)], .exit 1⟩ := by
  simp [main, h]

theorem main_getInterfaceList_err {S L : Type} (w : World S L) (s : S) (l : L) (e : GoError)
    (h1 : w.NewScanner Background [] = some (s, none))
    (h2 : w.GetInterfaceList s = some (l, some e)) :
    main w = ⟨[.NewScanner Background [], .GetInterfaceList s,
      .Fatalf (Sprintf "could not get interface list: %v" e)], .exit 1⟩ := by
  simp [main, h1, h2]

theorem main_marshal_err {S L : Type} (w : World S L) (s : S) (l : L) (b : List Byte)
    (e : GoError)
    (h1 : w.NewScanner Background [] = some (s, none))
    (h2 : w.GetInterfaceList s = some (l, none))
    (h3 : w.MarshalIndent l "" "\t" = some (b, some e)) :
    main w = ⟨[.NewScanner Background [], .GetInterfaceList s, .MarshalIndent l "" "\t",
      .Fatalf (Sprintf "unable to marshal: %v" e)], .exit 1⟩ := by
  simp [main, h1, h2, h3]

theorem main_ok_trace {S L : Type} (w : World S L) (s : S) (l : L) (b : List Byte)
    (h1 : w.NewScanner Background [] = some (s, none))
    (h2 : w.GetInterfaceList s = some (l, none))
    (h3 : w.MarshalIndent l "" "\t" = some (b, none)) :
    (main w).trace = [.NewScanner Background [], .GetInterfaceList s,
      .MarshalIndent l "" "\t", .Stdout (b ++ [10])] := by
  simp [main, h1, h2, h3, Println]

/-- The seven ways `main` can run, by what the library calls hand back. -/
theorem main_cases {S L : Type} (w : World S L) :
    (w.NewScanner Background [] = none ∧
      main w = ⟨[.NewScanner Background []], .noReturn⟩) ∨
    (∃ s e, w.NewScanner Background [] = some (s, some e) ∧
      main w = ⟨[.NewScanner Background [],
        .Fatalf (Sprintf "unable to create nmap scanner: %v" e)], .exit 1⟩) ∨
    (∃ s, w.NewScanner Background [] = some (s, none) ∧ w.GetInterfaceList s = none ∧
      main w = ⟨[.NewScanner Background [], .GetInterfaceList s], .noReturn⟩) ∨
    (∃ s l e, w.NewScanner Background [] = some (s, none) ∧
      w.GetInterfaceList s = some (l, some e) ∧
      main w = ⟨[.NewScanner Background [], .GetInterfaceList s,
        .Fatalf (Sprintf "could not get interface list: %v" e)], .exit 1⟩) ∨
    (∃ s l, w.NewScanner Background [] = some (s, none) ∧
      w.GetInterfaceList s = some (l, none) ∧ w.MarshalIndent l "" "\t" = none ∧
      main w = ⟨[.NewScanner Background [], .GetInterfaceList s,
        .MarshalIndent l "" "\t"], .noReturn⟩) ∨
    (∃ s l b e, w.NewScanner Background [] = some (s, none) ∧
      w.GetInterfaceList s = some (l, none) ∧ w.MarshalIndent l "" "\t" = some (b, some e) ∧
      main w = ⟨[.NewScanner Background [], .GetInterfaceList s, .MarshalIndent l "" "\t",
        .Fatalf (Sprintf "unable to marshal: %v" e)], .exit 1⟩) ∨
    (∃ s l b, w.NewScanner Background [] = some (s, none) ∧
      w.GetInterfaceList s = some (l, none) ∧ w.MarshalIndent l "" "\t" = some (b, none) ∧
      (main w).trace = [.NewScanner Background [], .GetInterfaceList s,
        .MarshalIndent l "" "\t", .Stdout (b ++ [10])] ∧
      (main w).outcome = (match w.Write (b ++ [10]) with
        | none => .noReturn
        | some _ => .exit 0)) := by
  rcases h1 : w.NewScanner Background [] with _ | ⟨s, _ | e⟩
  · left; simp [main, h1]
  · rcases h2 : w.GetInterfaceList s with _ | ⟨l, _ | e⟩
    · right; right; left; exact ⟨s, rfl, h2, by simp [main, h1, h2]⟩
    · rcases h3 : w.MarshalIndent l "" "\t" with _ | ⟨b, _ | e⟩
      · right; right; right; right; left
        exact ⟨s, l, rfl, h2, h3, by simp [main, h1, h2, h3]⟩
      · right; right; right; right; right; right
        exact ⟨s, l, b, rfl, h2, h3, by simp [main, h1, h2, h3, Println],
          by simp [main, h1, h2, h3, Println]⟩
      · right; right; right; right; right; left
        exact ⟨s, l, b, e, rfl, h2, h3, by simp [main, h1, h2, h3]⟩
    · right; right; right; left
      exact ⟨s, l, e, rfl, h2, by simp [main, h1, h2]⟩
  · right; left
    exact ⟨s, e, rfl, by simp [main, h1]⟩

/-! ## Lemmas on the run state machine -/

theorem steps_completed {R : Type} (lib : Library R) (ctx : Context)
    (cfg : ScanConfiguration) (spawn : Except ScanError Process) (r : R) (n : Nat) :
    RunState.steps lib ctx cfg spawn n (.Completed r) = .Completed r := by
  induction n with
  | zero => rfl
  | succ n ih => simpa [RunState.steps, RunState.step] using ih

theorem steps_failed {R : Type} (lib : Library R) (ctx : Context)
    (cfg : ScanConfiguration) (spawn : Except ScanError Process) (e : ScanError) (n : Nat) :
    RunState.steps lib ctx cfg spawn n (.Failed e : RunState R) = .Failed e := by
  induction n with
  | zero => rfl
  | succ n ih => simpa [RunState.steps, RunState.step] using ih

theorem steps_parsing {R : Type} (lib : Library R) (ctx : Context)
    (cfg : ScanConfiguration) (spawn : Except ScanError Process) (out : List Byte)
    (n : Nat) :
    RunState.steps lib ctx cfg spawn (n + 1) (.Parsing out) =
      (match lib.Parse out with
        | .ok r => .Completed r
        | .error e => .Failed e.toScanError) := by
  rw [RunState.steps]
  cases h : lib.Parse out with
  | ok r => simp [RunState.step, h, steps_completed]
  | error e => simp [RunState.step, h, steps_failed]

theorem steps_streaming {R : Type} (lib : Library R) (ctx : Context)
    (cfg : ScanConfiguration) (spawn : Except ScanError Process) (exitCode : Nat)
    (pending : List ProcEvent) :
    ∀ (out err : List Byte) (t k : Nat), pending.length + 2 ≤ k →
      RunState.steps lib ctx cfg spawn k (.Streaming pending exitCode out err t) =
        drained lib ctx pending exitCode out err t := by
  induction pending with
  | nil =>
    intro out err t k hk
    obtain ⟨k, rfl⟩ : ∃ j, k = j + 2 := ⟨k - 2, by simp at hk; omega⟩
    rw [RunState.steps]
    by_cases hc : cancellationRequested ctx t = true
    · simp [RunState.step, hc, drained, cancelledWithin, steps_failed]
    · by_cases hx : exitCode = 0
      · simp [RunState.step, hc, hx, drained, cancelledWithin, steps_parsing, stdoutOf]
      · simp [RunState.step, hc, hx, drained, cancelledWithin, steps_failed, stderrOf]
  | cons ev rest ih =>
    intro out err t k hk
    obtain ⟨k, rfl⟩ : ∃ j, k = j + 1 := ⟨k - 1, by simp at hk; omega⟩
    have hk2 : rest.length + 2 ≤ k := by simp at hk; omega
    rw [RunState.steps]
    by_cases hc : cancellationRequested ctx t = true
    · simp [RunState.step, hc, drained, cancelledWithin, steps_failed]
    · cases ev with
      | stdout c =>
        simp only [RunState.step, hc]
        rw [if_neg (by simp), ih _ _ _ _ hk2]
        simp [drained, cancelledWithin, hc, stdoutOf, stderrOf, List.append_assoc]
      | stderr c =>
        simp only [RunState.step, hc]
        rw [if_neg (by simp), ih _ _ _ _ hk2]
        simp [drained, cancelledWithin, hc, stdoutOf, stderrOf, List.append_assoc]

theorem cancelledWithin_eq_false (ctx : Context) (n : Nat) :
    ∀ t, cancelledWithin ctx t n = false ↔
      ∀ i, i < n → cancellationRequested ctx (t + i) = false := by
  induction n with
  | zero => intro t; simp [cancelledWithin]
  | succ n ih =>
    intro t
    simp only [cancelledWithin, Bool.or_eq_false_iff, ih]
    constructor
    · rintro ⟨h0, h⟩ i hi
      cases i with
      | zero => simpa using h0
      | succ i =>
        have := h i (by omega)
        rwa [show t + 1 + i = t + (i + 1) by omega] at this
    · intro h
      refine ⟨by simpa using h 0 (by omega), fun i hi => ?_⟩
      have := h (i + 1) (by omega)
      rwa [show t + (i + 1) = t + 1 + i by omega] at this

theorem runFor_eq_runOutcome {R : Type} (lib : Library R) (ctx : Context)
    (cfg : ScanConfiguration) (spawn : Except ScanError Process) (fuel : Nat)
    (hfuel : runFuel spawn ≤ fuel) :
    RunFor lib ctx cfg spawn fuel = some (runOutcome lib ctx cfg spawn) := by
  have h5 : 5 ≤ fuel := by
    cases spawn with
    | ok proc => simp [runFuel] at hfuel; omega
    | error e => simpa [runFuel] using hfuel
  obtain ⟨k, rfl⟩ : ∃ j, fuel = j + 3 := ⟨fuel - 3, by omega⟩
  unfold RunFor
  rw [RunState.steps, RunState.steps]
  simp only [RunState.step]
  by_cases hv : validOptions lib cfg.options = true
  · rw [if_pos hv, RunState.steps]
    unfold runOutcome
    rw [if_pos hv]
    cases spawn with
    | error e => simp [RunState.step, steps_failed, RunState.returned]
    | ok proc =>
      have hk : proc.events.length + 2 ≤ k := by simp [runFuel] at hfuel; omega
      simp only [RunState.step]
      rw [steps_streaming lib ctx cfg (.ok proc) proc.exitCode proc.events [] [] 0 k hk]
      unfold drained
      by_cases hc : cancelledWithin ctx 0 (proc.events.length + 1) = true
      · simp [hc, RunState.returned]
      · by_cases hx : proc.exitCode = 0
        · cases hp : lib.Parse (stdoutOf proc.events) with
          | ok r => simp [hc, hx, hp, RunState.returned]
          | error e => simp [hc, hx, hp, RunState.returned]
        · simp [hc, hx, RunState.returned]
  · rw [if_neg hv, steps_failed]
    simp [runOutcome, hv, RunState.returned]

/-! ## The example program -/

/-- C1: whenever `NewScanner`, `GetInterfaceList` and `MarshalIndent` all return a nil
error, `main` makes exactly the calls `NewScanner`, `GetInterfaceList`,
`MarshalIndent(interfaceList, "", "\t")` on the very value `GetInterfaceList` returned,
and one write; standard output receives exactly one write, the bytes `MarshalIndent`
returned followed by a single newline, and no fatal log is emitted. -/
theorem C1_success_prints_marshalled_list {S L : Type} (w : World S L) (scanner : S)
    (interfaceList : L) (bytes : List Byte)
    (h1 : w.NewScanner Background [] = some (scanner, none))
    (h2 : w.GetInterfaceList scanner = some (interfaceList, none))
    (h3 : w.MarshalIndent interfaceList "" "\t" = some (bytes, none)) :
    (main w).trace = [.NewScanner Background [], .GetInterfaceList scanner,
      .MarshalIndent interfaceList "" "\t", .Stdout (bytes ++ [10])] ∧
    stdoutWrites (main w).trace = [bytes ++ [10]] ∧
    fatalMessages (main w).trace = [] := by
  have ht := main_ok_trace w scanner interfaceList bytes h1 h2 h3
  refine ⟨ht, ?_, ?_⟩
  · rw [ht]; rfl
  · rw [ht]; rfl

/-- C1 at the example world: the marshalled bytes `[]` are printed followed by a
newline. -/
theorem C1_success_prints_marshalled_list_witness :
    (main okWorld).trace = [.NewScanner Background [], .GetInterfaceList 7,
      .MarshalIndent [1, 2] "" "\t", .Stdout ([91, 93] ++ [10])] ∧
    stdoutWrites (main okWorld).trace = [[91, 93] ++ [10]] ∧
    fatalMessages (main okWorld).trace = [] :=
  C1_success_prints_marshalled_list okWorld 7 [1, 2] [91, 93] rfl rfl rfl

/-- C2: `main` prints to standard output if and only if `NewScanner`,
`GetInterfaceList` and `MarshalIndent` all returned a nil error; and if one of them
returns a non-nil error, `main` ends in `log.Fatalf` (one fatal message, exit status 1)
and standard output receives nothing. -/
theorem C2_prints_iff_no_error {S L : Type} (w : World S L) :
    (stdoutWrites (main w).trace ≠ [] ↔
      ∃ s l b, w.NewScanner Background [] = some (s, none) ∧
        w.GetInterfaceList s = some (l, none) ∧
        w.MarshalIndent l "" "\t" = some (b, none)) ∧
    (((∃ s e, w.NewScanner Background [] = some (s, some e)) ∨
      (∃ s l e, w.NewScanner Background [] = some (s, none) ∧
        w.GetInterfaceList s = some (l, some e)) ∨
      (∃ s l b e, w.NewScanner Background [] = some (s, none) ∧
        w.GetInterfaceList s = some (l, none) ∧
        w.MarshalIndent l "" "\t" = some (b, some e))) →
      (main w).outcome = .exit 1 ∧ (fatalMessages (main w).trace).length = 1 ∧
        stdoutWrites (main w).trace = []) := by
  constructor
  · constructor
    · intro hne
      rcases main_cases w with ⟨_, hm⟩ | ⟨_, _, _, hm⟩ | ⟨_, _, _, hm⟩ | ⟨_, _, _, _, _, hm⟩ |
        ⟨_, _, _, _, _, hm⟩ | ⟨_, _, _, _, _, _, _, hm⟩ | ⟨s, l, b, h1, h2, h3, _, _⟩
      · exact absurd (by rw [hm]; rfl) hne
      · exact absurd (by rw [hm]; rfl) hne
      · exact absurd (by rw [hm]; rfl) hne
      · exact absurd (by rw [hm]; rfl) hne
      · exact absurd (by rw [hm]; rfl) hne
      · exact absurd (by rw [hm]; rfl) hne
      · exact ⟨s, l, b, h1, h2, h3⟩
    · rintro ⟨s, l, b, h1, h2, h3⟩
      rw [main_ok_trace w s l b h1 h2 h3]
      simp [stdoutWrites]
  · rintro (⟨s, e, h1⟩ | ⟨s, l, e, h1, h2⟩ | ⟨s, l, b, e, h1, h2, h3⟩)
    · rw [main_newScanner_err w s e h1]
      exact ⟨rfl, rfl, rfl⟩
    · rw [main_getInterfaceList_err w s l e h1 h2]
      exact ⟨rfl, rfl, rfl⟩
    · rw [main_marshal_err w s l b e h1 h2 h3]
      exact ⟨rfl, rfl, rfl⟩

/-- C2 at the world whose `NewScanner` fails: the failure is fatal and nothing is
printed. -/
theorem C2_prints_iff_no_error_witness :
    (main failWorld).outcome = .exit 1 ∧ (fatalMessages (main failWorld).trace).length = 1 ∧
      stdoutWrites (main failWorld).trace = [] :=
  (C2_prints_iff_no_error failWorld).2 (Or.inl ⟨0, ⟨"nmap binary was not found"⟩, rfl⟩)

/-- C3: a failure of `NewScanner` with error `e` is reported as
"unable to create nmap scanner: " followed by `e`'s text, a failure of
`GetInterfaceList` as "could not get interface list: " followed by `e`'s text, and a
failure of `MarshalIndent` as "unable to marshal: " followed by `e`'s text; the three
prefixes are pairwise distinct, and a fatal message determines both which prefix it
starts with and the error text that follows it. -/
theorem C3_fatal_message_identifies_failure {S L : Type} (w : World S L) :
    (∀ s e, w.NewScanner Background [] = some (s, some e) →
      fatalMessages (main w).trace = ["unable to create nmap scanner: " ++ e.Error]) ∧
    (∀ s l e, w.NewScanner Background [] = some (s, none) →
      w.GetInterfaceList s = some (l, some e) →
      fatalMessages (main w).trace = ["could not get interface list: " ++ e.Error]) ∧
    (∀ s l b e, w.NewScanner Background [] = some (s, none) →
      w.GetInterfaceList s = some (l, none) →
      w.MarshalIndent l "" "\t" = some (b, some e) →
      fatalMessages (main w).trace = ["unable to marshal: " ++ e.Error]) ∧
    prefixes = ["unable to create nmap scanner: ", "could not get interface list: ",
      "unable to marshal: "] ∧
    prefixes.Nodup ∧
    (∀ p ∈ prefixes, ∀ q ∈ prefixes, ∀ a b : String, p ++ a = q ++ b → p = q ∧ a = b) := by
  refine ⟨?_, ?_, ?_, rfl, by decide, ?_⟩
  · intro s e h1
    rw [main_newScanner_err w s e h1, ← sprintf_newScanner]
    rfl
  · intro s l e h1 h2
    rw [main_getInterfaceList_err w s l e h1 h2, ← sprintf_getInterfaceList]
    rfl
  · intro s l b e h1 h2 h3
    rw [main_marshal_err w s l b e h1 h2 h3, ← sprintf_marshal]
    rfl
  · intro p hp q hq a b h
    exact fatal_text_determines p q hp hq a b h

/-- C3 at the world whose `NewScanner` fails with "nmap binary was not found". -/
theorem C3_fatal_message_identifies_failure_witness :
    fatalMessages (main failWorld).trace =
      ["unable to create nmap scanner: " ++ "nmap binary was not found"] :=
  (C3_fatal_message_identifies_failure failWorld).1 0 ⟨"nmap binary was not found"⟩ rfl

/-- C8: in every execution the calls `main` makes are an initial segment of
`NewScanner`, `GetInterfaceList`, `MarshalIndent`, `Println` (each at most once, in that
order); `GetInterfaceList` is called only if `NewScanner` returned a nil error,
`MarshalIndent` only if `GetInterfaceList` did, `Println` only if `MarshalIndent` did;
and when every library call `main` makes returns, `main` terminates (it exits with some
status). -/
theorem C8_straight_line_no_retry {S L : Type} (w : World S L) :
    calls (main w).trace <+: [Call.NewScanner, Call.GetInterfaceList, Call.MarshalIndent,
      Call.Println] ∧
    (Call.GetInterfaceList ∈ calls (main w).trace →
      ∃ s, w.NewScanner Background [] = some (s, none)) ∧
    (Call.MarshalIndent ∈ calls (main w).trace →
      ∃ s l, w.NewScanner Background [] = some (s, none) ∧
        w.GetInterfaceList s = some (l, none)) ∧
    (Call.Println ∈ calls (main w).trace →
      ∃ s l b, w.NewScanner Background [] = some (s, none) ∧
        w.GetInterfaceList s = some (l, none) ∧
        w.MarshalIndent l "" "\t" = some (b, none)) ∧
    ((∀ ev ∈ (main w).trace, ev.completes w = true) →
      ∃ code, (main w).outcome = .exit code) := by
  rcases main_cases w with ⟨h1, hm⟩ | ⟨s, e, h1, hm⟩ | ⟨s, h1, h2, hm⟩ | ⟨s, l, e, h1, h2, hm⟩ |
    ⟨s, l, h1, h2, h3, hm⟩ | ⟨s, l, b, e, h1, h2, h3, hm⟩ | ⟨s, l, b, h1, h2, h3, ht, ho⟩
  · rw [hm]
    refine ⟨by simp [calls], by simp [calls], by simp [calls], by simp [calls], ?_⟩
    intro a
    have := a (.NewScanner Background []) (by simp)
    simp [Event.completes, h1] at this
  · rw [hm]
    exact ⟨by simp [calls], by simp [calls], by simp [calls], by simp [calls],
      fun _ => ⟨1, rfl⟩⟩
  · rw [hm]
    refine ⟨by simp [calls], fun _ => ⟨s, h1⟩, by simp [calls], by simp [calls], ?_⟩
    intro a
    have := a (.GetInterfaceList s) (by simp)
    simp [Event.completes, h2] at this
  · rw [hm]
    exact ⟨by simp [calls], fun _ => ⟨s, h1⟩, by simp [calls], by simp [calls],
      fun _ => ⟨1, rfl⟩⟩
  · rw [hm]
    refine ⟨by simp [calls], fun _ => ⟨s, h1⟩, fun _ => ⟨s, l, h1, h2⟩, by simp [calls], ?_⟩
    intro a
    have := a (.MarshalIndent l "" "\t") (by simp)
    simp [Event.completes, h3] at this
  · rw [hm]
    exact ⟨by simp [calls], fun _ => ⟨s, h1⟩, fun _ => ⟨s, l, h1, h2⟩, by simp [calls],
      fun _ => ⟨1, rfl⟩⟩
  · rw [ht, ho]
    refine ⟨by simp [calls], fun _ => ⟨s, h1⟩, fun _ => ⟨s, l, h1, h2⟩,
      fun _ => ⟨s, l, b, h1, h2, h3⟩, ?_⟩
    intro a
    have := a (.Stdout (b ++ [10])) (by simp)
    rcases hw : w.Write (b ++ [10]) with _ | r
    · simp [Event.completes, hw] at this
    · exact ⟨0, rfl⟩

/-- C8 at the example world, where every library call returns: `main` terminates. -/
theorem C8_straight_line_no_retry_witness : ∃ code, (main okWorld).outcome = .exit code :=
  (C8_straight_line_no_retry okWorld).2.2.2.2 (by
    intro ev hev
    have ht : (main okWorld).trace = [.NewScanner Background [], .GetInterfaceList 7,
        .MarshalIndent [1, 2] "" "\t", .Stdout ([91, 93] ++ [10])] :=
      main_ok_trace okWorld 7 [1, 2] [91, 93] rfl rfl rfl
    rw [ht] at hev
    simp only [List.mem_cons, List.mem_singleton, List.not_mem_nil, or_false] at hev
    rcases hev with rfl | rfl | rfl | rfl <;> rfl)

/-- C9: the only scanner `main` constructs is built with `context.Background()` and an
empty option list; that context has no deadline, its `Done` channel is never closed and
its `Err` is always nil, so no cancellation is ever pending on it, and the empty option
list passes the configuration-time check of any library. -/
theorem C9_background_context_no_options {S L R : Type} (w : World S L) (lib : Library R) :
    (main w).trace.head? = some (.NewScanner Background []) ∧
    (∀ ctx options, Event.NewScanner ctx options ∈ (main w).trace →
      ctx = Background ∧ options = []) ∧
    (calls (main w).trace).count Call.NewScanner = 1 ∧
    Background.Deadline = none ∧
    (∀ t, Background.Done t = false ∧ Background.Err t = none) ∧
    (∀ t, cancellationRequested Background t = false) ∧
    validOptions lib [] = true := by
  refine ⟨?_, ?_, ?_, rfl, fun _ => ⟨rfl, rfl⟩, fun _ => rfl, rfl⟩
  · rcases main_cases w with ⟨_, hm⟩ | ⟨_, _, _, hm⟩ | ⟨_, _, _, hm⟩ | ⟨_, _, _, _, _, hm⟩ |
      ⟨_, _, _, _, _, hm⟩ | ⟨_, _, _, _, _, _, _, hm⟩ | ⟨_, _, _, _, _, _, hm, _⟩ <;>
      rw [hm] <;> rfl
  · intro ctx options
    rcases main_cases w with ⟨_, hm⟩ | ⟨_, _, _, hm⟩ | ⟨_, _, _, hm⟩ | ⟨_, _, _, _, _, hm⟩ |
      ⟨_, _, _, _, _, hm⟩ | ⟨_, _, _, _, _, _, _, hm⟩ | ⟨_, _, _, _, _, _, hm, _⟩ <;>
      rw [hm] <;> simp
  · rcases main_cases w with ⟨_, hm⟩ | ⟨_, _, _, hm⟩ | ⟨_, _, _, hm⟩ | ⟨_, _, _, _, _, hm⟩ |
      ⟨_, _, _, _, _, hm⟩ | ⟨_, _, _, _, _, _, _, hm⟩ | ⟨_, _, _, _, _, _, hm, _⟩ <;>
      rw [hm] <;> simp [calls]

/-! ## Claims on the library -/

/-- C4: `NewScanner` returns a scanner when the tool binary is discoverable and its
version meets the minimum, fails with `ToolNotFoundError` when the binary is not
discoverable and with `UnsupportedVersionError` when its version is below the minimum;
and when the call `nmap.NewScanner(context.Background())` of `main` fails, the error is
one of these two and `main` ends in the fatal log "unable to create nmap scanner: "
followed by the error's text, with exit status 1 and nothing printed. -/
theorem C4_newScanner_validates_tool {L : Type} (host : Host) (ctx : Context)
    (options : List ScanOption) (describe : ScanError → String)
    (rest : World (Option Scanner) L) :
    (∀ v, host.tool = some v → v.meets host.minimumVersion = true →
      NewScanner host ctx options = .ok ⟨ctx, options, v⟩) ∧
    (host.tool = none → NewScanner host ctx options = .error .ToolNotFoundError) ∧
    (∀ v, host.tool = some v → v.meets host.minimumVersion = false →
      NewScanner host ctx options = .error .UnsupportedVersionError) ∧
    (∀ e, NewScanner host Background [] = .error e →
      (e = .ToolNotFoundError ∨ e = .UnsupportedVersionError) ∧
      (main (libraryWorld host describe rest)).outcome = .exit 1 ∧
      fatalMessages (main (libraryWorld host describe rest)).trace =
        ["unable to create nmap scanner: " ++ describe e] ∧
      stdoutWrites (main (libraryWorld host describe rest)).trace = []) := by
  refine ⟨?_, ?_, ?_, ?_⟩
  · intro v hv hm
    simp [NewScanner, hv, hm]
  · intro hv
    simp [NewScanner, hv]
  · intro v hv hm
    simp [NewScanner, hv, hm]
  · intro e he
    have hw : (libraryWorld host describe rest).NewScanner Background [] =
        some (none, some ⟨describe e⟩) := by
      simp [libraryWorld, he, goResult]
    refine ⟨?_, ?_⟩
    · unfold NewScanner at he
      rcases ht : host.tool with _ | v
      · rw [ht] at he
        simp at he
        exact Or.inl he.symm
      · rw [ht] at he
        by_cases hm : v.meets host.minimumVersion = true
        · simp [hm] at he
        · simp [hm] at he
          exact Or.inr he.symm
    · rw [main_newScanner_err _ none ⟨describe e⟩ hw, sprintf_newScanner]
      exact ⟨rfl, rfl, rfl⟩

/-- C4 on two hosts: without the tool `NewScanner` fails with `ToolNotFoundError`; with
the tool at version 7.80 and a minimum of 7.0 it returns a scanner. -/
theorem C4_newScanner_validates_tool_witness :
    (bareHost.tool = none ∧
      NewScanner bareHost Background [] = .error .ToolNotFoundError) ∧
    (demoHost.tool = some ⟨7, 80⟩ ∧
      NewScanner demoHost Background [] = .ok ⟨Background, [], ⟨7, 80⟩⟩) :=
  ⟨⟨rfl, (C4_newScanner_validates_tool bareHost Background [] (fun _ => "")
      (libraryWorld bareHost (fun _ => "") okLibraryWorld)).2.1 rfl⟩,
    ⟨rfl, (C4_newScanner_validates_tool demoHost Background [] (fun _ => "")
      (libraryWorld demoHost (fun _ => "") okLibraryWorld)).1 ⟨7, 80⟩ rfl rfl⟩⟩

/-- C5: for every valid configuration, `Run` returns, and it returns either the result
of parsing the whole standard output of a process that was spawned, exited with status 0
and was never cancelled, or a specific error: the spawn failure, `CancelledError` when a
cancellation was pending at a suspension point, `ProcessExecutionError` with the captured
standard error when the exit status is non-zero, or the parser's error; a successful
return is never anything but the parse of the complete output, and more fuel does not
change what is returned. -/
theorem C5_run_full_result_or_error {R : Type} (lib : Library R) (ctx : Context)
    (cfg : ScanConfiguration) (spawn : Except ScanError Process)
    (hvalid : validOptions lib cfg.options = true) :
    ((∃ r proc, spawn = .ok proc ∧ Run lib ctx cfg spawn = some (.ok r) ∧
        lib.Parse (stdoutOf proc.events) = .ok r ∧ proc.exitCode = 0 ∧
        ∀ t, t ≤ proc.events.length → cancellationRequested ctx t = false) ∨
      (∃ e, Run lib ctx cfg spawn = some (.error e) ∧
        (spawn = .error e ∨
          ∃ proc, spawn = .ok proc ∧
            ((e = .CancelledError ∧
                ∃ t, t ≤ proc.events.length ∧ cancellationRequested ctx t = true) ∨
              (e = .ProcessExecutionError (stderrOf proc.events) ∧ proc.exitCode ≠ 0) ∨
              (∃ pe, lib.Parse (stdoutOf proc.events) = .error pe ∧
                e = pe.toScanError))))) ∧
    (∀ r, Run lib ctx cfg spawn = some (.ok r) →
      ∃ proc, spawn = .ok proc ∧ lib.Parse (stdoutOf proc.events) = .ok r ∧
        proc.exitCode = 0) ∧
    (∀ fuel, runFuel spawn ≤ fuel → RunFor lib ctx cfg spawn fuel = Run lib ctx cfg spawn) := by
  have hrun : Run lib ctx cfg spawn = some (runOutcome lib ctx cfg spawn) :=
    runFor_eq_runOutcome lib ctx cfg spawn _ (Nat.le_refl _)
  have hmain : (∃ r proc, spawn = .ok proc ∧ Run lib ctx cfg spawn = some (.ok r) ∧
        lib.Parse (stdoutOf proc.events) = .ok r ∧ proc.exitCode = 0 ∧
        ∀ t, t ≤ proc.events.length → cancellationRequested ctx t = false) ∨
      (∃ e, Run lib ctx cfg spawn = some (.error e) ∧
        (spawn = .error e ∨
          ∃ proc, spawn = .ok proc ∧
            ((e = .CancelledError ∧
                ∃ t, t ≤ proc.events.length ∧ cancellationRequested ctx t = true) ∨
              (e = .ProcessExecutionError (stderrOf proc.events) ∧ proc.exitCode ≠ 0) ∨
              (∃ pe, lib.Parse (stdoutOf proc.events) = .error pe ∧
                e = pe.toScanError)))) := by
    rw [hrun]
    unfold runOutcome
    rw [if_pos hvalid]
    cases spawn with
    | error e => exact Or.inr ⟨e, rfl, Or.inl rfl⟩
    | ok proc =>
      by_cases hc : cancelledWithin ctx 0 (proc.events.length + 1) = true
      · right
        refine ⟨.CancelledError, by simp [hc], Or.inr ⟨proc, rfl, Or.inl ⟨rfl, ?_⟩⟩⟩
        by_contra hno
        have hall : ∀ i, i < proc.events.length + 1 →
            cancellationRequested ctx (0 + i) = false := by
          intro i hi
          by_contra hi2
          exact hno ⟨i, by omega, by simpa using hi2⟩
        rw [(cancelledWithin_eq_false ctx _ 0).2 hall] at hc
        exact Bool.false_ne_true hc
      · have hcf : cancelledWithin ctx 0 (proc.events.length + 1) = false := by
          simpa using hc
        have hall := (cancelledWithin_eq_false ctx _ 0).1 hcf
        by_cases hx : proc.exitCode = 0
        · cases hp : lib.Parse (stdoutOf proc.events) with
          | ok r =>
            left
            refine ⟨r, proc, rfl, by simp [hcf, hx, hp], hp, hx, ?_⟩
            intro t ht
            simpa using hall t (by omega)
          | error pe =>
            right
            exact ⟨pe.toScanError, by simp [hcf, hx, hp],
              Or.inr ⟨proc, rfl, Or.inr (Or.inr ⟨pe, hp, rfl⟩)⟩⟩
        · right
          exact ⟨_, by simp [hcf, hx], Or.inr ⟨proc, rfl, Or.inr (Or.inl ⟨rfl, hx⟩)⟩⟩
  refine ⟨hmain, ?_, ?_⟩
  · intro r hr
    rcases hmain with ⟨r2, proc, hs, hr2, hp, hx, _⟩ | ⟨e, he, _⟩
    · rw [hr] at hr2
      have hrr : r = r2 := by simpa using hr2
      exact ⟨proc, hs, by rw [hrr]; exact hp, hx⟩
    · rw [hr] at he
      simp at he
  · intro fuel hfuel
    rw [hrun]
    exact runFor_eq_runOutcome lib ctx cfg spawn fuel hfuel

/-- C5 on the example process: the configuration is valid, and a successful return is
the parse of the complete standard output of a process that exited with status 0. -/
theorem C5_run_full_result_or_error_witness :
    validOptions demoLibrary demoConfiguration.options = true ∧
    (∀ r, Run demoLibrary Background demoConfiguration (.ok demoProcess) = some (.ok r) →
      ∃ proc, Except.ok demoProcess = (.ok proc : Except ScanError Process) ∧
        demoLibrary.Parse (stdoutOf proc.events) = .ok r ∧ proc.exitCode = 0) :=
  ⟨rfl, (C5_run_full_result_or_error demoLibrary Background demoConfiguration
    (.ok demoProcess) rfl).2.1⟩

end ListInterfaces
